import Mathlib

/-!
# Earth scene: render loop, camera tween and control surface

A shallow embedding of `src/assets/js/earth/scene.js` (class `Scene`).

* Numbers are elements of a linearly ordered field `α`, and every arithmetic
  operation rounds its exact result with `Env.round`: the identity for exact
  arithmetic (the reals, the rationals), `roundDouble` for IEEE doubles.
* A camera coordinate holds a JavaScript value (`Value α`), because
  `Vector3.set` stores whatever `setCamera` passes to it.
* `TWEEN` (tween.js) is a collaborator: its ledger of started tweens is the
  field `tweens` of the state, and one call of `TWEEN.update` advances every
  tween of the ledger, dropping the ones that finish.
* Completion callbacks are syntactic (`Callback`): a callback records that it
  ran together with the camera position it saw, and then returns, issues one
  chained navigation call, or throws.
* A frame in which a callback throws stops where the exception leaves it:
  what was written before stays written (`Outcome.raised`).
-/

namespace Earth

/-! ## JavaScript values -/

/-- Errors a JavaScript call can raise in the modelled fragment. -/
inductive JsError where
  | typeError
deriving DecidableEq, Repr

/-- JavaScript values that can be passed to `setCamera` and stored in a camera
coordinate: `undefined`, `null`, `NaN`, a number, or an object whose `x`, `y`
and `z` properties are such values (a missing property reads as `undefined`). -/
inductive Value (α : Type) where
  | undefined
  | null
  | nan
  | number (a : α)
  | object (x y z : Value α)
deriving DecidableEq, Repr

/-- A triple `x`, `y`, `z` (THREE.Vector3, or an object literal with these keys). -/
structure Vector3 (β : Type) where
  x : β
  y : β
  z : β
deriving DecidableEq, Repr

namespace Value

variable {α : Type}

/-- ToNumber of a value; `none` stands for NaN. -/
def toNumber [Zero α] : Value α → Option α
  | undefined => none
  | null => some 0
  | nan => none
  | number a => some a
  | object _ _ _ => none

/-- A binary numeric operator: both operands go through ToNumber, NaN is
contagious, and the exact result is rounded. -/
def arith [Zero α] (round : α → α) (f : α → α → α) (a b : Value α) : Value α :=
  match a.toNumber, b.toNumber with
  | some m, some n => number (round (f m n))
  | _, _ => nan

/-- Numeric addition (used only where both operands are already numeric). -/
def add [Zero α] [Add α] (round : α → α) (a b : Value α) : Value α :=
  arith round (· + ·) a b

/-- The operator `-`. -/
def sub [Zero α] [Sub α] (round : α → α) (a b : Value α) : Value α :=
  arith round (· - ·) a b

/-- The operator `*`. -/
def mul [Zero α] [Mul α] (round : α → α) (a b : Value α) : Value α :=
  arith round (· * ·) a b

/-- The expression `v || 0`: the falsy values `undefined`, `null`, `NaN` and `0`
give `0`, any other value gives itself. -/
def orZero [Zero α] : Value α → Value α
  | undefined => number 0
  | null => number 0
  | nan => number 0
  | number a => number a
  | object x y z => object x y z

/-- Whether a value is `undefined` or `null`. -/
def isNullish : Value α → Bool
  | undefined => true
  | null => true
  | _ => false

/-- The property read `v[key]` for one of the keys `x`, `y`, `z`, selected by
`pick`: raises TypeError on `undefined` and `null`, is `undefined` on a
primitive number. -/
def getProperty (pick : Vector3 (Value α) → Value α) : Value α → Except JsError (Value α)
  | undefined => .error .typeError
  | null => .error .typeError
  | nan => .ok undefined
  | number _ => .ok undefined
  | object x y z => .ok (pick ⟨x, y, z⟩)

end Value

/-! ## Collaborators: locations table, easing functions, callbacks -/

/-- An entry of the `LOCATIONS` table (the table itself lives in
`@/assets/js/constants` and is a parameter of the model). -/
structure Location (α : Type) where
  name : String
  cameraNearPosition : Vector3 α
  cameraFarPosition : Vector3 α
deriving DecidableEq, Repr

/-- What the module takes from outside: the `LOCATIONS` table,
`String.prototype.toLowerCase`, `Math.cos`, `Math.sin`, and the rounding of the
number type (`round x` is the number that stands for the exact result `x`). -/
structure Env (α : Type) where
  LOCATIONS : List (Location α)
  toLowerCase : String → String
  cos : α → α
  sin : α → α
  round : α → α

/-- Lower-casing of the ASCII letters, with which `toLowerCase` agrees on ASCII
strings. -/
def asciiLowerCase (s : String) : String :=
  String.mk (s.data.map Char.toLower)

/-- Rounding of a quotient `n / d` of naturals to the nearest natural, ties to
the even one. -/
def roundHalfEven (n d : Nat) : Nat :=
  let q := n / d
  let r := n % d
  if 2 * r < d then q
  else if d < 2 * r then q + 1
  else if q % 2 = 0 then q else q + 1

/-- The number of times `d` is doubled until `n / d < 2^53`; the first argument
bounds the search. -/
def scaleDown : Nat → Nat → Nat → Nat
  | 0, _, _ => 0
  | bound + 1, n, d => if n < 2 ^ 53 * d then 0 else scaleDown bound n (2 * d) + 1

/-- The number of times `n` is doubled until `2^52 <= n / d`; the first argument
bounds the search. -/
def scaleUp : Nat → Nat → Nat → Nat
  | 0, _, _ => 0
  | bound + 1, n, d => if 2 ^ 52 * d ≤ n then 0 else scaleUp bound (2 * n) d + 1

/-- Rounding of a rational to the nearest IEEE double (53-bit significand,
ties to even); overflow and subnormal numbers are left out. The magnitude
`n / d` is scaled by a power of two into `[2^52, 2^53)`, rounded to a natural,
and scaled back. -/
def roundDouble (q : ℚ) : ℚ :=
  if q = 0 then 0
  else
    let n := q.num.natAbs
    let d := q.den
    let down := scaleDown 1100 n d
    let up := scaleUp 1100 n d
    let m := roundHalfEven (n * 2 ^ up) (d * 2 ^ down)
    let magnitude : ℚ := ((m * 2 ^ down : Nat) : ℚ) / ((2 ^ up : Nat) : ℚ)
    if q < 0 then -magnitude else magnitude

/-- The easing functions the scene uses: `TWEEN.Easing.Linear.None`,
`TWEEN.Easing.Quadratic.In` and `TWEEN.Easing.Quadratic.Out`. -/
inductive Easing where
  | linearNone
  | quadraticIn
  | quadraticOut
deriving DecidableEq, Repr

/-- The easing functions of tween.js: `k`, `k * k` and `k * (2 - k)`. -/
def Easing.apply {α : Type} [Field α] (round : α → α) : Easing → α → α
  | .linearNone, k => k
  | .quadraticIn, k => round (k * k)
  | .quadraticOut, k => round (k * round (2 - k))

/-- The three named navigation actions of the control surface. -/
inductive Navigation where
  | rotateTo
  | zoomInTo
  | zoomOutTo
deriving DecidableEq, Repr

/-- A completion callback. `notify id` only records that it ran; `chain id
action name onComplete` records that it ran and then calls the navigation
`action (name, onComplete)` on the scene; `throws id` records that it ran and
then throws. -/
inductive Callback where
  | notify (id : Nat)
  | chain (id : Nat) (action : Navigation) (name : String) (onComplete : Callback)
  | throws (id : Nat)
deriving DecidableEq, Repr

/-- The identifier under which a callback records its run. -/
def Callback.id : Callback → Nat
  | .notify id => id
  | .chain id _ _ _ => id
  | .throws id => id

/-- Whether a run of the callback ends in an exception. -/
def Callback.raises : Callback → Bool
  | .notify _ => false
  | .chain _ _ _ _ => false
  | .throws _ => true

/-- The `name` argument of a navigation call: a string or any other value. -/
inductive NameArg where
  | string (s : String)
  | nonString
deriving DecidableEq, Repr

/-- Strict equality `s === name` for a string `s`. -/
def NameArg.strictEq (s : String) : NameArg → Bool
  | .string n => s == n
  | .nonString => false

/-- The second argument of `_toLocation`; an absent key is `none`. -/
structure Options (α : Type) where
  isNear : Option Bool := none
  duration : Option α := none
  easing : Option Easing := none
  onComplete : Option Callback := none

/-- How a piece of code ends: it returns, or an exception leaves it, in either
case with the state as written so far. -/
inductive Outcome (σ : Type) where
  | returned (s : σ)
  | raised (s : σ)
deriving DecidableEq, Repr

/-- The state an outcome leaves. -/
def Outcome.scene {σ : Type} : Outcome σ → σ
  | .returned s => s
  | .raised s => s

/-- Whether the outcome is an exception. -/
def Outcome.isRaised {σ : Type} : Outcome σ → Bool
  | .returned _ => false
  | .raised _ => true

/-- How `Tween.update(time)` ends: it returns `true` (the tween stays in the
ledger), it returns `false` (the tween has finished), or a handler throws. -/
inductive Tick (σ : Type) where
  | alive (s : σ)
  | finished (s : σ)
  | raised (s : σ)
deriving DecidableEq, Repr

/-- The state a tick leaves. -/
def Tick.scene {σ : Type} : Tick σ → σ
  | .alive s => s
  | .finished s => s
  | .raised s => s

/-! ## State -/

/-- A started tween of tween.js: the start values captured by `start()`
(`undefined` for a property `start()` skipped), the end values and duration
given to `to()`, the easing function and the start time. Its update and
complete handlers are the ones `_tweenTo` installs. -/
structure Tween (α : Type) where
  valuesStart : Vector3 (Value α)
  valuesEnd : Vector3 (Value α)
  duration : α
  easing : Easing
  startTime : α
deriving DecidableEq, Repr

/-- The camera, of which only the position is modelled. -/
structure Camera (α : Type) where
  position : Vector3 (Value α)
deriving DecidableEq, Repr

/-- Which branch `_render` took. -/
inductive RenderPath where
  | direct
  | composed
deriving DecidableEq, Repr

/-- The fields of a `Scene` instance that the render loop, the tween machinery
and the control surface read or write, the ledger of tween.js (`tweens`), the
cloud's `rotation.y`, and two records kept for stating properties:
`completions` (each run of a callback, with `cameraPosition()` at that moment)
and `renders` (the path of each `_render`). -/
structure Scene (α : Type) where
  camera : Camera α
  autoRotate : Bool
  rotationSpeed : α
  cloudSpeed : α
  tween : Option (Tween α)
  isTweening : Bool
  onTweenComplete : Option Callback
  isStart : Bool
  cloudRotationY : α
  tweens : List (Tween α)
  completions : List (Nat × Vector3 (Value α))
  renders : List RenderPath
deriving DecidableEq, Repr

namespace Scene

variable {α : Type} [LinearOrderedField α]

/-! ## Control surface -/

/-- Source `setCamera ()`, lines 213-219, on the list `arguments`. -/
def setCamera (arguments : List (Value α)) (s : Scene α) : Except JsError (Scene α) :=
  if arguments.length = 3 then
    .ok { s with camera.position :=
      ⟨arguments.getD 0 .undefined, arguments.getD 1 .undefined, arguments.getD 2 .undefined⟩ }
  else do
    let x ← (arguments.getD 0 .undefined).getProperty Vector3.x
    let y ← (arguments.getD 0 .undefined).getProperty Vector3.y
    let z ← (arguments.getD 0 .undefined).getProperty Vector3.z
    .ok { s with camera.position := ⟨x, y, z⟩ }

/-- Source `cameraPosition ()`, lines 221-227. -/
def cameraPosition (s : Scene α) : Vector3 (Value α) :=
  ⟨s.camera.position.x, s.camera.position.y, s.camera.position.z⟩

/-- Source `startAutoRotate ()`, lines 229-231. -/
def startAutoRotate (s : Scene α) : Scene α :=
  { s with autoRotate := true }

/-- Source `stopAutoRotate ()`, lines 233-235. -/
def stopAutoRotate (s : Scene α) : Scene α :=
  { s with autoRotate := false }

/-- The start value `start()` of tween.js captures for one property of the
tweened object: a property that is `undefined` is skipped (its start value
stays `undefined`), any other value is multiplied by `1.0`. -/
def startValue (env : Env α) : Value α → Value α
  | .undefined => .undefined
  | v => Value.mul env.round v (.number 1)

/-- Source `_tweenTo (position, duration = 1000, easing = Linear.None)`, lines
180-203. `now` is the clock reading `start()` takes; `start()` appends the
tween to the ledger. -/
def _tweenTo (env : Env α) (now : α) (position : Vector3 α) (duration : Option α)
    (easing : Option Easing) (s : Scene α) : Scene α :=
  let duration := duration.getD 1000
  let easing := easing.getD .linearNone
  let camera := s.camera
  let tween : Tween α :=
    { valuesStart :=
        ⟨startValue env camera.position.x, startValue env camera.position.y,
          startValue env camera.position.z⟩
      valuesEnd := ⟨.number position.x, .number position.y, .number position.z⟩
      duration := duration
      easing := easing
      startTime := now }
  let s := { s with tween := some tween, tweens := s.tweens ++ [tween] }
  { s with isTweening := true }

/-- The table lookup of `_toLocation`, line 206. -/
def findLocation (env : Env α) (name : NameArg) : Option (Location α) :=
  (env.LOCATIONS.filter fun location => name.strictEq (env.toLowerCase location.name)).head?

/-- Source `_toLocation (name, { isNear = false, duration, easing, onComplete })`,
lines 205-211. -/
def _toLocation (env : Env α) (now : α) (name : NameArg) (options : Options α)
    (s : Scene α) : Scene α :=
  let isNear := options.isNear.getD false
  match findLocation env name with
  | some location =>
    let s := _tweenTo env now
      (if isNear then location.cameraNearPosition else location.cameraFarPosition)
      options.duration options.easing s
    { s with onTweenComplete := options.onComplete }
  | none => s

/-- Source `rotateTo (name, onComplete)`, lines 237-239. -/
def rotateTo (env : Env α) (now : α) (name : NameArg) (onComplete : Option Callback)
    (s : Scene α) : Scene α :=
  _toLocation env now name { onComplete := onComplete } s

/-- Source `zoomInTo (name, onComplete)`, lines 241-247. -/
def zoomInTo (env : Env α) (now : α) (name : NameArg) (onComplete : Option Callback)
    (s : Scene α) : Scene α :=
  _toLocation env now name
    { isNear := some true, easing := some .quadraticIn, onComplete := onComplete } s

/-- Source `zoomOutTo (name, onComplete)`, lines 249-254. -/
def zoomOutTo (env : Env α) (now : α) (name : NameArg) (onComplete : Option Callback)
    (s : Scene α) : Scene α :=
  _toLocation env now name { easing := some .quadraticOut, onComplete := onComplete } s

/-- Dispatch of a navigation action to its method. -/
def navigate (env : Env α) (now : α) : Navigation → NameArg → Option Callback →
    Scene α → Scene α
  | .rotateTo => rotateTo env now
  | .zoomInTo => zoomInTo env now
  | .zoomOutTo => zoomOutTo env now

/-- The position a navigation action aims at: `zoomInTo` the near position,
`rotateTo` and `zoomOutTo` the far position. -/
def target : Navigation → Location α → Vector3 α
  | .rotateTo, location => location.cameraFarPosition
  | .zoomInTo, location => location.cameraNearPosition
  | .zoomOutTo, location => location.cameraFarPosition

/-! ## Tween scheduler -/

/-- Running a callback: it records its identifier with `cameraPosition()`; then
a plain callback returns, a chained callback issues its navigation call (the
clock reads `now`) and returns, and a throwing callback throws. -/
def invoke (env : Env α) (now : α) (callback : Callback) (s : Scene α) : Outcome (Scene α) :=
  let s := { s with completions := s.completions ++ [(callback.id, cameraPosition s)] }
  match callback with
  | .notify _ => .returned s
  | .chain _ action name onComplete =>
    .returned (navigate env now action (.string name) (some onComplete) s)
  | .throws _ => .raised s

/-- The update handler `_tweenTo` installs, lines 194-196:
`that.setCamera(this.x, this.y, this.z)`. -/
def onUpdate (object : Vector3 (Value α)) (s : Scene α) : Scene α :=
  match setCamera [object.x, object.y, object.z] s with
  | .ok s => s
  | .error _ => s

/-- The complete handler `_tweenTo` installs, lines 197-201. An exception of
the callback leaves the handler before line 200. -/
def onComplete (env : Env α) (now : α) (s : Scene α) : Outcome (Scene α) :=
  let s := { s with isTweening := false }
  match s.onTweenComplete with
  | some callback =>
    match invoke env now callback s with
    | .returned s => .returned { s with onTweenComplete := none }
    | .raised s => .raised s
  | none => .returned { s with onTweenComplete := none }

end Scene

namespace Tween

variable {α : Type} [LinearOrderedField α]

/-- The elapsed fraction `Tween.update(time)` computes:
`(time - _startTime) / _duration`, capped at 1. -/
def elapsed (env : Env α) (time : α) (tween : Tween α) : α :=
  let elapsed := env.round (env.round (time - tween.startTime) / tween.duration)
  if elapsed > 1 then 1 else elapsed

/-- One property of the tweened object after `Tween.update(time)`: a property
without a start value is not written and stays `undefined`; otherwise it
becomes `start + (end - start) * value` with `start = _valuesStart || 0`. -/
def interpolate (env : Env α) (valueStart valueEnd value : Value α) : Value α :=
  match valueStart with
  | .undefined => .undefined
  | valueStart =>
    let start := valueStart.orZero
    Value.add env.round start (Value.mul env.round (Value.sub env.round valueEnd start) value)

/-- The values `Tween.update(time)` leaves in the tweened object, with `value`
the eased elapsed fraction. -/
def object (env : Env α) (tween : Tween α) (elapsed : α) : Vector3 (Value α) :=
  let value : Value α := .number (tween.easing.apply env.round elapsed)
  ⟨interpolate env tween.valuesStart.x tween.valuesEnd.x value,
    interpolate env tween.valuesStart.y tween.valuesEnd.y value,
    interpolate env tween.valuesStart.z tween.valuesEnd.z value⟩

/-- Whether `Tween.update(time)` finds the tween finished: the start time has
come and the elapsed fraction is 1. -/
def finishes (env : Env α) (time : α) (tween : Tween α) : Bool :=
  !decide (time < tween.startTime) && decide (elapsed env time tween = 1)

/-- The method `Tween.update(time)` of tween.js for a tween of the scene: before
the start time nothing happens; otherwise the object is recomputed, the update
handler runs, and at `elapsed = 1` the complete handler runs and the result is
`false` (the tween leaves the ledger), unless the handler throws. -/
def update (env : Env α) (time : α) (tween : Tween α) (s : Scene α) : Tick (Scene α) :=
  if time < tween.startTime then .alive s
  else
    let elapsed := elapsed env time tween
    let s := Scene.onUpdate (object env tween elapsed) s
    if elapsed = 1 then
      match Scene.onComplete env time s with
      | .returned s => .finished s
      | .raised s => .raised s
    else .alive s

end Tween

namespace TWEEN

variable {α : Type} [LinearOrderedField α]

/-- The loop of `TWEEN.update`: `while (i < _tweens.length)`, advancing `i`
after a tween that stays and splicing out a tween that finished; an exception
leaves the loop at once. The first argument bounds the number of iterations. -/
def updateLoop (env : Env α) (time : α) : Nat → Nat → Scene α → Outcome (Scene α)
  | 0, _, s => .returned s
  | n + 1, i, s =>
    match s.tweens[i]? with
    | none => .returned s
    | some tween =>
      match Tween.update env time tween s with
      | .alive s => updateLoop env time n (i + 1) s
      | .finished s => updateLoop env time n i { s with tweens := s.tweens.eraseIdx i }
      | .raised s => .raised s

/-- The number of iterations `updateLoop` can still make from index `i`: one for
each tween from `i` on, and one more for the tween a pending callback may start. -/
def iterations (i : Nat) (s : Scene α) : Nat :=
  (s.tweens.length - i) + (if s.onTweenComplete.isSome then 1 else 0)

/-- The call `TWEEN.update()` of tween.js with the clock reading `time`. -/
def update (env : Env α) (time : α) (s : Scene α) : Outcome (Scene α) :=
  if s.tweens.length = 0 then .returned s else updateLoop env time (iterations 0 s) 0 s

end TWEEN

namespace Scene

variable {α : Type} [LinearOrderedField α]

/-! ## Render loop -/

/-- The call `controller.update()` of the orbit controller, taken as the
identity on the camera position. -/
def controllerUpdate (s : Scene α) : Scene α := s

/-- Source `_animate ()`, lines 155-168; `time` is the clock reading of
`TWEEN.update()`. An exception of `TWEEN.update()` leaves the method before
line 166. -/
def _animate (env : Env α) (time : α) (s : Scene α) : Outcome (Scene α) :=
  let rotationSpeed := s.rotationSpeed
  let cloudSpeed := s.cloudSpeed
  let s :=
    if s.autoRotate then
      let s := { s with camera.position.x :=
        (Value.sub env.round
          (Value.mul env.round s.camera.position.x (Value.number (env.cos rotationSpeed)))
          (Value.mul env.round s.camera.position.z (Value.number (env.sin rotationSpeed)))) }
      { s with camera.position.z :=
        (Value.add env.round
          (Value.mul env.round s.camera.position.z (Value.number (env.cos rotationSpeed)))
          (Value.mul env.round s.camera.position.x (Value.number (env.sin rotationSpeed)))) }
    else s
  match TWEEN.update env time s with
  | .returned s =>
    let s := { s with cloudRotationY := env.round (s.cloudRotationY + cloudSpeed) }
    .returned (controllerUpdate s)
  | .raised s => .raised s

/-- Source `_render ()`, lines 170-178. -/
def _render (s : Scene α) : Scene α :=
  if s.isStart then
    { s with renders := s.renders ++ [RenderPath.composed] }
  else
    let s := { s with renders := s.renders ++ [RenderPath.direct] }
    { s with isStart := true }

/-- Source `_loop ()`, lines 149-153: one scheduled frame. An exception of
`_animate ()` leaves the frame before `_render ()`. -/
def _loop (env : Env α) (time : α) (s : Scene α) : Outcome (Scene α) :=
  match _animate env time s with
  | .returned s => .returned (_render s)
  | .raised s => .raised s

/-- The fields after lines 18-37 and the `_create...` calls of `_init`:
the camera at `(0, 0, -28)`, `isStart` not yet set (falsy), an empty ledger.
`cloudRotationY` is the `rotation.y` of the mesh `createCloud()` returns. -/
def fields (env : Env α) (cloudRotationY : α) : Scene α :=
  { camera := ⟨⟨.number 0, .number 0, .number (-28)⟩⟩
    autoRotate := true
    rotationSpeed := env.round (1 / 1000)
    cloudSpeed := -env.round (3 / 10000)
    tween := none
    isTweening := false
    onTweenComplete := none
    isStart := false
    cloudRotationY := cloudRotationY
    tweens := []
    completions := []
    renders := [] }

/-- Source `constructor` and `_init ()`, lines 17-53: the fields are set and
`_loop ()` runs its first frame. -/
def new (env : Env α) (cloudRotationY : α) (time : α) : Scene α :=
  (_loop env time (fields env cloudRotationY)).scene

/-! ## Runs -/

end Scene

/-- A call of the public control surface. -/
inductive Action (α : Type) where
  | startAutoRotate
  | stopAutoRotate
  | setCamera (arguments : List (Value α))
  | navigate (action : Navigation) (name : NameArg) (onComplete : Option Callback)

/-- What happens to a scene: a scheduled frame, or a call of the control
surface made when the clock reads `now`. -/
inductive Event (α : Type) where
  | frame (time : α)
  | call (now : α) (action : Action α)

namespace Scene

variable {α : Type} [LinearOrderedField α]

/-- A control-surface call; `.error` when the call raises. -/
def call (env : Env α) (now : α) : Action α → Scene α → Except JsError (Scene α)
  | .startAutoRotate, s => .ok (startAutoRotate s)
  | .stopAutoRotate, s => .ok (stopAutoRotate s)
  | .setCamera arguments, s => setCamera arguments s
  | .navigate action name onComplete, s => .ok (navigate env now action name onComplete s)

/-- One event. A call that raises leaves the scene as it was; a frame that
raises leaves it as written up to the exception, and the next frame is already
scheduled (line 150). -/
def step (env : Env α) (s : Scene α) : Event α → Scene α
  | .frame time => (_loop env time s).scene
  | .call now action =>
    match call env now action s with
    | .ok s => s
    | .error _ => s

/-- A sequence of events, in order. -/
def run (env : Env α) (s : Scene α) (events : List (Event α)) : Scene α :=
  events.foldl (step env) s

/-- A sequence of frames with the given clock readings and no call in between. -/
def frames (env : Env α) (s : Scene α) (times : List α) : Scene α :=
  times.foldl (fun s time => (_loop env time s).scene) s

/-- The number of frames of a run that reach `_render ()`. -/
def rendered (env : Env α) : Scene α → List (Event α) → Nat
  | _, [] => 0
  | s, .frame time :: events =>
    (if (_loop env time s).isRaised then 0 else 1) + rendered env (step env s (.frame time)) events
  | s, .call now action :: events => rendered env (step env s (.call now action)) events

end Scene

/-! ## Predicates and samples used in the statements -/

/-- Whether an event is a scheduled frame. -/
def Event.isFrame {α : Type} : Event α → Bool
  | .frame _ => true
  | .call _ _ => false

/-- Whether an event hands the scene no callback that throws. -/
def Event.returns {α : Type} : Event α → Bool
  | .call _ (.navigate _ _ (some callback)) => !callback.raises
  | _ => true

namespace Scene

variable {α : Type} [LinearOrderedField α]

/-- Between `s` and `s'` the record of runs grew only by runs of the callback
stored in `s`, and the stored callback is still the same or has been cleared. -/
def Fires (s s' : Scene α) : Prop :=
  (∃ extra, s'.completions = s.completions ++ extra ∧
    ∀ e ∈ extra, ∃ callback, s.onTweenComplete = some callback ∧ e.1 = callback.id) ∧
  (s'.onTweenComplete = s.onTweenComplete ∨ s'.onTweenComplete = none)

/-- The easing function each navigation action passes on (`rotateTo` leaves
the default). -/
def easingOf : Navigation → Easing
  | .rotateTo => .linearNone
  | .zoomInTo => .quadraticIn
  | .zoomOutTo => .quadraticOut

/-- The tween a navigation call starts when its name resolves to `location`:
from the camera position of `s` to the action's target, over 1000 time units. -/
def startedTween (env : Env α) (now : α) (action : Navigation) (location : Location α)
    (s : Scene α) : Tween α :=
  { valuesStart :=
      ⟨startValue env s.camera.position.x, startValue env s.camera.position.y,
        startValue env s.camera.position.z⟩
    valuesEnd :=
      ⟨.number (target action location).x, .number (target action location).y,
        .number (target action location).z⟩
    duration := 1000
    easing := easingOf action
    startTime := now }

end Scene

/-- A sample environment over the rationals with exact arithmetic: a table of
two locations, and the rational point `(4/5, 3/5)` of the unit circle for the
cosine and sine of the rotation angle. -/
def sampleEnv : Env ℚ :=
  { LOCATIONS :=
      [⟨"Tokyo", ⟨1, 2, 3⟩, ⟨4, 5, 6⟩⟩, ⟨"Paris", ⟨7, 8, 9⟩, ⟨10, 11, 12⟩⟩]
    toLowerCase := asciiLowerCase
    cos := fun _ => 4 / 5
    sin := fun _ => 3 / 5
    round := id }

/-- The sample environment in IEEE doubles: the same table, the doubles
nearest to `0.8` and `0.6` for the cosine and sine, and every operation rounded
to the nearest double. -/
def doubleEnv : Env ℚ :=
  { LOCATIONS :=
      [⟨"Tokyo", ⟨1, 2, 3⟩, ⟨4, 5, 6⟩⟩, ⟨"Paris", ⟨7, 8, 9⟩, ⟨10, 11, 12⟩⟩]
    toLowerCase := asciiLowerCase
    cos := fun _ => roundDouble (4 / 5)
    sin := fun _ => roundDouble (3 / 5)
    round := roundDouble }

namespace Scene

variable {α : Type}

/-- The stored callback, if any, does not throw. -/
def Calm (s : Scene α) : Prop :=
  ∀ callback, s.onTweenComplete = some callback → callback.raises = false

end Scene

namespace Scene

variable {α : Type}

/-- Where a tween leaves a camera coordinate at elapsed fraction 1 when the
arithmetic is exact: a coordinate that was `undefined` when the navigation was
called is never written, any other coordinate is at the target. -/
def arrival (coordinate : Value α) (target : α) : Value α :=
  match coordinate with
  | .undefined => .undefined
  | _ => .number target

end Scene

/-! ## Basic facts -/

namespace Scene

variable {α : Type}

@[simp] theorem setCamera_three (x y z : Value α) (s : Scene α) :
    setCamera [x, y, z] s = .ok { s with camera.position := ⟨x, y, z⟩ } := rfl

@[simp] theorem onUpdate_eq (object : Vector3 (Value α)) (s : Scene α) :
    onUpdate object s = { s with camera.position := object } := rfl

end Scene

/-! ## The two shapes of `setCamera` -/

/-- C10: `setCamera(x, y, z)` and `setCamera({x, y, z})` end in the same state;
in it `cameraPosition()` is `{x, y, z}` and every other field is as before. -/
theorem setCamera_overloads_agree {α : Type} (x y z : Value α) (s : Scene α) :
    Scene.setCamera [x, y, z] s = Scene.setCamera [Value.object x y z] s ∧
    Scene.setCamera [x, y, z] s = .ok { s with camera := ⟨⟨x, y, z⟩⟩ } ∧
    Scene.cameraPosition { s with camera := ⟨⟨x, y, z⟩⟩ } = ⟨x, y, z⟩ :=
  ⟨rfl, rfl, rfl⟩

/-! ## Which calls raise -/

/-- C7 as stated fails: `setCamera()` with no argument raises TypeError. -/
theorem setCamera_no_argument_raises :
    Scene.setCamera ([] : List (Value ℚ)) (Scene.fields sampleEnv 0) = .error .typeError := rfl

/-- C7, amended: the navigation calls never raise, and `setCamera` returns
without raising exactly when it receives three arguments or a first argument
that is neither `undefined` nor `null`. -/
theorem call_raises_only_in_setCamera {α : Type} [LinearOrderedField α]
    (env : Env α) (now : α) (s : Scene α) :
    (∀ action name onComplete,
      ∃ s', Scene.call env now (.navigate action name onComplete) s = .ok s') ∧
    (∀ arguments : List (Value α),
      (∃ s', Scene.call env now (.setCamera arguments) s = .ok s') ↔
        (arguments.length = 3 ∨ (arguments.getD 0 .undefined).isNullish = false)) := by
  refine ⟨fun action name onComplete => ⟨_, rfl⟩, fun arguments => ?_⟩
  simp only [Scene.call, Scene.setCamera]
  by_cases h : arguments.length = 3
  · simp [h]
  · simp only [h, if_false, false_or]
    cases h0 : arguments.getD 0 .undefined <;>
      simp [Value.getProperty, Value.isNullish, bind, Except.bind]

/-! ## What a frame can do to the stored callback and to the record of runs -/

namespace Scene

variable {α : Type} [LinearOrderedField α]

theorem Fires.refl {α : Type} (s : Scene α) : Fires s s :=
  ⟨⟨[], by simp, by simp⟩, Or.inl rfl⟩

theorem Fires.trans {α : Type} {s s' s'' : Scene α} (h : Fires s s') (h' : Fires s' s'') :
    Fires s s'' := by
  obtain ⟨⟨extra, hc, he⟩, ho⟩ := h
  obtain ⟨⟨extra', hc', he'⟩, ho'⟩ := h'
  refine ⟨⟨extra ++ extra', by rw [hc', hc, List.append_assoc], fun e hmem => ?_⟩, ?_⟩
  · rcases List.mem_append.1 hmem with hm | hm
    · exact he e hm
    · obtain ⟨cb, hcb, hid⟩ := he' e hm
      rcases ho with ho | ho
      · exact ⟨cb, ho ▸ hcb, hid⟩
      · rw [ho] at hcb
        exact absurd hcb (by simp)
  · rcases ho' with ho' | ho'
    · rcases ho with ho | ho
      · exact Or.inl (ho'.trans ho)
      · exact Or.inr (ho'.trans ho)
    · exact Or.inr ho'

theorem Fires.of_eq {α : Type} {s s' : Scene α}
    (ho : s'.onTweenComplete = s.onTweenComplete)
    (hc : s'.completions = s.completions) : Fires s s' :=
  ⟨⟨[], by simp [hc], by simp⟩, Or.inl ho⟩

theorem Fires.of_none {α : Type} {s s' : Scene α} (h : Fires s s')
    (hn : s.onTweenComplete = none) :
    s'.onTweenComplete = none ∧ s'.completions = s.completions := by
  obtain ⟨⟨extra, hc, he⟩, ho⟩ := h
  have hnil : extra = [] := by
    apply List.eq_nil_iff_forall_not_mem.2
    intro e hmem
    obtain ⟨cb, hcb, _⟩ := he e hmem
    rw [hn] at hcb
    exact absurd hcb (by simp)
  refine ⟨?_, by rw [hc, hnil, List.append_nil]⟩
  rcases ho with ho | ho
  · exact ho.trans hn
  · exact ho

theorem navigate_completions (env : Env α) (now : α) (action : Navigation) (name : NameArg)
    (cb : Option Callback) (s : Scene α) :
    (navigate env now action name cb s).completions = s.completions := by
  cases action <;> simp only [navigate, rotateTo, zoomInTo, zoomOutTo, _toLocation] <;>
    cases findLocation env name <;> rfl

theorem onComplete_completions (env : Env α) (now : α) (s : Scene α) :
    (onComplete env now s).scene.completions =
      s.completions ++
        (match s.onTweenComplete with
          | some callback => [(callback.id, cameraPosition s)]
          | none => []) := by
  unfold onComplete
  cases h : s.onTweenComplete with
  | none => simp [h, Outcome.scene]
  | some cb =>
    cases cb with
    | notify id => simp [h, invoke, cameraPosition, Outcome.scene]
    | chain id action name next =>
      simp [h, invoke, navigate_completions, cameraPosition, Outcome.scene]
    | throws id => simp [h, invoke, cameraPosition, Outcome.scene]

theorem onComplete_onTweenComplete (env : Env α) (now : α) (s : Scene α) :
    (onComplete env now s).scene.onTweenComplete = s.onTweenComplete ∨
    (onComplete env now s).scene.onTweenComplete = none := by
  unfold onComplete
  cases h : s.onTweenComplete with
  | none => simp [h, Outcome.scene]
  | some cb =>
    cases cb with
    | notify id => simp [h, invoke, Outcome.scene]
    | chain id action name next => simp [h, invoke, Outcome.scene]
    | throws id => simp [h, invoke, Outcome.scene]

theorem onComplete_calm (env : Env α) (now : α) (s : Scene α) (h : Calm s) :
    ∃ s', onComplete env now s = .returned s' ∧ s'.onTweenComplete = none := by
  unfold onComplete
  cases hc : s.onTweenComplete with
  | none => simp only [hc]; exact ⟨_, rfl, rfl⟩
  | some cb =>
    cases cb with
    | notify id => simp only [hc, invoke]; exact ⟨_, rfl, rfl⟩
    | chain id action name next => simp only [hc, invoke]; exact ⟨_, rfl, rfl⟩
    | throws id =>
      have := h _ hc
      simp [Callback.raises] at this

theorem onComplete_fires (env : Env α) (now : α) (s : Scene α) :
    Fires s (onComplete env now s).scene := by
  refine ⟨⟨_, onComplete_completions env now s, fun e he => ?_⟩,
    onComplete_onTweenComplete env now s⟩
  cases h : s.onTweenComplete with
  | none => rw [h] at he; exact absurd he (List.not_mem_nil e)
  | some cb =>
    rw [h] at he
    exact ⟨cb, rfl, by rw [List.mem_singleton.1 he]⟩

end Scene

namespace Tween

variable {α : Type} [LinearOrderedField α]

open Scene

theorem update_cases (env : Env α) (time : α) (tween : Tween α) (s : Scene α) :
    (finishes env time tween = false ∧
      ∃ camera, update env time tween s = .alive { s with camera := camera }) ∨
    (finishes env time tween = true ∧
      update env time tween s =
        (match onComplete env time (onUpdate (object env tween 1) s) with
          | .returned s => .finished s
          | .raised s => .raised s)) := by
  unfold update finishes
  by_cases h1 : time < tween.startTime
  · exact Or.inl ⟨by simp [h1], s.camera, by simp only [h1, if_true]⟩
  · by_cases h2 : elapsed env time tween = 1
    · exact Or.inr ⟨by simp [h1, h2], by simp only [h1, if_false, h2, if_true]⟩
    · exact Or.inl ⟨by simp [h1, h2], ⟨object env tween (elapsed env time tween)⟩, by
        simp only [h1, if_false, h2, onUpdate_eq]⟩

theorem update_of_finishes (env : Env α) (time : α) (tween : Tween α) (s : Scene α)
    (h : finishes env time tween = true) :
    update env time tween s =
      (match onComplete env time (onUpdate (object env tween 1) s) with
        | .returned s => .finished s
        | .raised s => .raised s) := by
  rcases update_cases env time tween s with ⟨h', _⟩ | ⟨_, h'⟩
  · rw [h] at h'; cases h'
  · exact h'

theorem update_of_not_finishes (env : Env α) (time : α) (tween : Tween α) (s : Scene α)
    (h : finishes env time tween = false) :
    ∃ camera, update env time tween s = .alive { s with camera := camera } := by
  rcases update_cases env time tween s with ⟨_, h'⟩ | ⟨h', _⟩
  · exact h'
  · rw [h] at h'; cases h'

theorem tick_fires (env : Env α) (time : α) (tween : Tween α) (s : Scene α) :
    Fires s (update env time tween s).scene := by
  rcases update_cases env time tween s with ⟨_, camera, h⟩ | ⟨_, h⟩
  · rw [h]; exact Fires.of_eq rfl rfl
  · rw [h]
    have hf := onComplete_fires env time (onUpdate (object env tween 1) s)
    have hs : (match onComplete env time (onUpdate (object env tween 1) s) with
        | .returned s => Tick.finished s
        | .raised s => Tick.raised s).scene =
        (onComplete env time (onUpdate (object env tween 1) s)).scene := by
      cases onComplete env time (onUpdate (object env tween 1) s) <;> rfl
    rw [hs]
    exact Fires.trans (Fires.of_eq rfl rfl) hf

end Tween

namespace TWEEN

variable {α : Type} [LinearOrderedField α]

open Scene

theorem updateLoop_none (env : Env α) (time : α) (n i : Nat) (s : Scene α)
    (h : s.tweens[i]? = none) : updateLoop env time n i s = .returned s := by
  cases n with
  | zero => rfl
  | succ n => unfold updateLoop; simp only [h]

theorem updateLoop_alive (env : Env α) (time : α) (n i : Nat) (s s' : Scene α)
    (tween : Tween α) (h : s.tweens[i]? = some tween)
    (hu : Tween.update env time tween s = .alive s') :
    updateLoop env time (n + 1) i s = updateLoop env time n (i + 1) s' := by
  conv => lhs; unfold updateLoop
  simp only [h, hu]

theorem updateLoop_finished (env : Env α) (time : α) (n i : Nat) (s s' : Scene α)
    (tween : Tween α) (h : s.tweens[i]? = some tween)
    (hu : Tween.update env time tween s = .finished s') :
    updateLoop env time (n + 1) i s =
      updateLoop env time n i { s' with tweens := s'.tweens.eraseIdx i } := by
  conv => lhs; unfold updateLoop
  simp only [h, hu]

theorem updateLoop_raised (env : Env α) (time : α) (n i : Nat) (s s' : Scene α)
    (tween : Tween α) (h : s.tweens[i]? = some tween)
    (hu : Tween.update env time tween s = .raised s') :
    updateLoop env time (n + 1) i s = .raised s' := by
  conv => lhs; unfold updateLoop
  simp only [h, hu]

theorem updateLoop_fires (env : Env α) (time : α) (n : Nat) :
    ∀ (i : Nat) (s : Scene α), Fires s (updateLoop env time n i s).scene := by
  induction n with
  | zero => intro i s; exact Fires.refl s
  | succ n ih =>
    intro i s
    cases h : s.tweens[i]? with
    | none => rw [updateLoop_none env time _ i s h]; exact Fires.refl s
    | some tween =>
      have hf := Tween.tick_fires env time tween s
      cases hu : Tween.update env time tween s with
      | alive s' =>
        rw [hu] at hf
        rw [updateLoop_alive env time n i s s' tween h hu]
        exact Fires.trans hf (ih _ _)
      | finished s' =>
        rw [hu] at hf
        rw [updateLoop_finished env time n i s s' tween h hu]
        exact Fires.trans hf (Fires.trans (Fires.of_eq rfl rfl) (ih _ _))
      | raised s' =>
        rw [hu] at hf
        rw [updateLoop_raised env time n i s s' tween h hu]
        exact hf

theorem update_fires (env : Env α) (time : α) (s : Scene α) :
    Fires s (update env time s).scene := by
  unfold update
  split
  · exact Fires.refl s
  · exact updateLoop_fires env time _ _ _

end TWEEN

/-! ## Frames -/

namespace Scene

variable {α : Type} [LinearOrderedField α]

theorem Calm.of_cleared {α : Type} {s : Scene α} (h : s.onTweenComplete = none) : Calm s := by
  intro cb hcb
  rw [h] at hcb
  cases hcb

theorem Calm.of_same {α : Type} {s s' : Scene α} (h : Calm s)
    (ho : s'.onTweenComplete = s.onTweenComplete) : Calm s' := by
  intro cb hcb
  exact h cb (ho ▸ hcb)

theorem _animate_eq (env : Env α) (time : α) (s : Scene α) :
    ∃ camera, _animate env time s =
      (match TWEEN.update env time { s with camera := camera } with
        | .returned s' =>
          .returned { s' with cloudRotationY := env.round (s'.cloudRotationY + s.cloudSpeed) }
        | .raised s' => .raised s') := by
  unfold _animate controllerUpdate
  by_cases h : s.autoRotate = true
  · simp only [if_pos h]
    exact ⟨_, rfl⟩
  · simp only [if_neg h]
    exact ⟨s.camera, rfl⟩

theorem _animate_fires (env : Env α) (time : α) (s : Scene α) :
    Fires s (_animate env time s).scene := by
  obtain ⟨camera, ha⟩ := _animate_eq env time s
  rw [ha]
  have hf := TWEEN.update_fires env time { s with camera := camera }
  cases hu : TWEEN.update env time { s with camera := camera } with
  | returned s' =>
    rw [hu] at hf
    exact Fires.trans (Fires.of_eq rfl rfl) (Fires.trans hf (Fires.of_eq rfl rfl))
  | raised s' =>
    rw [hu] at hf
    exact Fires.trans (Fires.of_eq rfl rfl) hf

@[simp] theorem _render_tweens {α : Type} (s : Scene α) : (_render s).tweens = s.tweens := by
  unfold _render; split <;> rfl

@[simp] theorem _render_onTweenComplete {α : Type} (s : Scene α) :
    (_render s).onTweenComplete = s.onTweenComplete := by
  unfold _render; split <;> rfl

@[simp] theorem _render_completions {α : Type} (s : Scene α) :
    (_render s).completions = s.completions := by
  unfold _render; split <;> rfl

theorem _loop_fires (env : Env α) (time : α) (s : Scene α) :
    Fires s (_loop env time s).scene := by
  have hf := _animate_fires env time s
  unfold _loop
  cases ha : _animate env time s with
  | returned s' =>
    rw [ha] at hf
    exact Fires.trans hf (Fires.of_eq (by simp [Outcome.scene]) (by simp [Outcome.scene]))
  | raised s' =>
    rw [ha] at hf
    exact hf

theorem frames_fires (env : Env α) (times : List α) :
    ∀ s : Scene α, Fires s (frames env s times) := by
  induction times with
  | nil => intro s; exact Fires.refl s
  | cons t ts ih => intro s; exact Fires.trans (_loop_fires env t s) (ih _)

theorem frames_idle (env : Env α) (times : List α) (s : Scene α)
    (h : s.onTweenComplete = none) :
    (frames env s times).onTweenComplete = none ∧
    (frames env s times).completions = s.completions :=
  (frames_fires env times s).of_none h

end Scene

/-! ## Frames in which no callback throws -/

namespace Tween

variable {α : Type} [LinearOrderedField α]

open Scene

theorem tick_calm (env : Env α) (time : α) (tween : Tween α) (s : Scene α) (h : Calm s) :
    (∃ s', update env time tween s = .alive s' ∧ Calm s' ∧ s'.tweens = s.tweens) ∨
    (∃ s', update env time tween s = .finished s' ∧ s'.onTweenComplete = none) := by
  rcases update_cases env time tween s with ⟨_, camera, hu⟩ | ⟨_, hu⟩
  · exact Or.inl ⟨_, hu, h.of_same rfl, rfl⟩
  · obtain ⟨s', hs', ho⟩ := onComplete_calm env time (onUpdate (object env tween 1) s)
      (h.of_same rfl)
    rw [hs'] at hu
    exact Or.inr ⟨s', hu, ho⟩

end Tween

namespace TWEEN

variable {α : Type} [LinearOrderedField α]

open Scene

theorem updateLoop_calm (env : Env α) (time : α) (n : Nat) :
    ∀ (i : Nat) (s : Scene α), Calm s →
      ∃ s', updateLoop env time n i s = .returned s' ∧ Calm s' := by
  induction n with
  | zero => intro i s h; exact ⟨s, rfl, h⟩
  | succ n ih =>
    intro i s h
    cases hg : s.tweens[i]? with
    | none => exact ⟨s, updateLoop_none env time _ i s hg, h⟩
    | some tween =>
      rcases Tween.tick_calm env time tween s h with ⟨s', hu, hc, _⟩ | ⟨s', hu, ho⟩
      · rw [updateLoop_alive env time n i s s' tween hg hu]
        exact ih _ _ hc
      · rw [updateLoop_finished env time n i s s' tween hg hu]
        exact ih _ _ (Calm.of_cleared ho)

theorem update_calm (env : Env α) (time : α) (s : Scene α) (h : Calm s) :
    ∃ s', update env time s = .returned s' ∧ Calm s' := by
  unfold update
  split
  · exact ⟨s, rfl, h⟩
  · exact updateLoop_calm env time _ _ _ h

end TWEEN

namespace Scene

variable {α : Type} [LinearOrderedField α]

theorem _loop_calm (env : Env α) (time : α) (s : Scene α) (h : Calm s) :
    ∃ s', _loop env time s = .returned s' ∧ Calm s' := by
  obtain ⟨camera, ha⟩ := _animate_eq env time s
  obtain ⟨s', hu, hc⟩ := TWEEN.update_calm env time { s with camera := camera } (h.of_same rfl)
  unfold _loop
  rw [ha, hu]
  exact ⟨_, rfl, hc.of_same (by simp)⟩

end Scene

/-! ## A navigation call, and frames over a ledger with one tween -/

namespace Scene

variable {α : Type} [LinearOrderedField α]

theorem navigate_resolved (env : Env α) (now : α) (action : Navigation) (name : NameArg)
    (cb : Option Callback) (s : Scene α) (location : Location α)
    (h : findLocation env name = some location) :
    navigate env now action name cb s =
      { s with
        tween := some (startedTween env now action location s)
        tweens := s.tweens ++ [startedTween env now action location s]
        isTweening := true
        onTweenComplete := cb } := by
  cases action <;>
    simp only [navigate, rotateTo, zoomInTo, zoomOutTo, _toLocation, h] <;> rfl

theorem navigate_fields (env : Env α) (now : α) (action : Navigation) (name : NameArg)
    (cb : Option Callback) (s : Scene α) (location : Location α)
    (h : findLocation env name = some location) :
    (navigate env now action name cb s).tweens =
      s.tweens ++ [startedTween env now action location s] ∧
    (navigate env now action name cb s).onTweenComplete = cb ∧
    (navigate env now action name cb s).completions = s.completions := by
  rw [navigate_resolved env now action name cb s location h]
  exact ⟨rfl, rfl, rfl⟩

theorem navigate_unresolved (env : Env α) (now : α) (action : Navigation) (name : NameArg)
    (cb : Option Callback) (s : Scene α) (h : findLocation env name = none) :
    navigate env now action name cb s = s := by
  cases action <;> simp only [navigate, rotateTo, zoomInTo, zoomOutTo, _toLocation, h]

end Scene

namespace TWEEN

variable {α : Type} [LinearOrderedField α]

open Scene

theorem update_eq_of_cons (env : Env α) (time : α) (tween : Tween α) (rest : List (Tween α))
    (s : Scene α) (ht : s.tweens = tween :: rest) :
    update env time s =
      updateLoop env time
        (rest.length + (if s.onTweenComplete.isSome then 1 else 0) + 1) 0 s := by
  unfold update iterations
  have hl : ¬ s.tweens.length = 0 := by rw [ht]; simp
  rw [if_neg hl, ht]
  congr 1
  simp only [List.length_cons]
  omega

theorem updateLoop_single_alive (env : Env α) (time : α) (tween : Tween α) (s : Scene α)
    (n : Nat) (ht : s.tweens = [tween]) (h : Tween.finishes env time tween = false) :
    ∃ camera, updateLoop env time (n + 1) 0 s = .returned { s with camera := camera } := by
  obtain ⟨camera, hu⟩ := Tween.update_of_not_finishes env time tween s h
  have h0 : s.tweens[0]? = some tween := by rw [ht]; simp
  refine ⟨camera, ?_⟩
  rw [updateLoop_alive env time n 0 s _ tween h0 hu]
  exact updateLoop_none env time _ _ _ (by simp [ht])

theorem updateLoop_head_finishes (env : Env α) (time : α) (tween : Tween α)
    (rest : List (Tween α)) (s : Scene α) (n : Nat) (ht : s.tweens = tween :: rest)
    (h : Tween.finishes env time tween = true) (hcalm : Calm s) :
    ∃ s', updateLoop env time (n + 1) 0 s = .returned s' ∧
      s'.onTweenComplete = none ∧
      s'.completions =
        s.completions ++
          (match s.onTweenComplete with
            | some callback => [(callback.id, Tween.object env tween 1)]
            | none => []) := by
  have hu := Tween.update_of_finishes env time tween s h
  obtain ⟨s₁, hs₁, ho₁⟩ :=
    onComplete_calm env time (onUpdate (Tween.object env tween 1) s) (hcalm.of_same rfl)
  have hc₁ := onComplete_completions env time (onUpdate (Tween.object env tween 1) s)
  rw [hs₁] at hu hc₁
  have h0 : s.tweens[0]? = some tween := by rw [ht]; simp
  rw [updateLoop_finished env time n 0 s s₁ tween h0 hu]
  obtain ⟨s₂, hs₂, _⟩ := updateLoop_calm env time n 0
    { s₁ with tweens := s₁.tweens.eraseIdx 0 } (Calm.of_cleared ho₁)
  have hf := updateLoop_fires env time n 0 { s₁ with tweens := s₁.tweens.eraseIdx 0 }
  rw [hs₂] at hf
  obtain ⟨h1, h2⟩ := hf.of_none ho₁
  exact ⟨s₂, hs₂, h1, h2.trans hc₁⟩

theorem update_single_alive (env : Env α) (time : α) (tween : Tween α) (s : Scene α)
    (ht : s.tweens = [tween]) (h : Tween.finishes env time tween = false) :
    ∃ camera, update env time s = .returned { s with camera := camera } := by
  rw [update_eq_of_cons env time tween [] s ht]
  exact updateLoop_single_alive env time tween s _ ht h

theorem update_head_finishes (env : Env α) (time : α) (tween : Tween α)
    (rest : List (Tween α)) (s : Scene α) (ht : s.tweens = tween :: rest)
    (h : Tween.finishes env time tween = true) (hcalm : Calm s) :
    ∃ s', update env time s = .returned s' ∧
      s'.onTweenComplete = none ∧
      s'.completions =
        s.completions ++
          (match s.onTweenComplete with
            | some callback => [(callback.id, Tween.object env tween 1)]
            | none => []) := by
  rw [update_eq_of_cons env time tween rest s ht]
  exact updateLoop_head_finishes env time tween rest s _ ht h hcalm

end TWEEN

namespace Scene

variable {α : Type} [LinearOrderedField α]

theorem _loop_single_alive (env : Env α) (time : α) (tween : Tween α) (s : Scene α)
    (ht : s.tweens = [tween]) (h : Tween.finishes env time tween = false) :
    (_loop env time s).scene.tweens = [tween] ∧
    (_loop env time s).scene.onTweenComplete = s.onTweenComplete ∧
    (_loop env time s).scene.completions = s.completions := by
  obtain ⟨camera, ha⟩ := _animate_eq env time s
  obtain ⟨camera', hu⟩ :=
    TWEEN.update_single_alive env time tween { s with camera := camera } ht h
  unfold _loop
  rw [ha, hu]
  exact ⟨by simpa [Outcome.scene] using ht, by simp [Outcome.scene], by simp [Outcome.scene]⟩

theorem _loop_head_finishes (env : Env α) (time : α) (tween : Tween α)
    (rest : List (Tween α)) (s : Scene α) (ht : s.tweens = tween :: rest)
    (h : Tween.finishes env time tween = true) (hcalm : Calm s) :
    (_loop env time s).scene.onTweenComplete = none ∧
    (_loop env time s).scene.completions =
      s.completions ++
        (match s.onTweenComplete with
          | some callback => [(callback.id, Tween.object env tween 1)]
          | none => []) := by
  obtain ⟨camera, ha⟩ := _animate_eq env time s
  obtain ⟨s', hu, h1, h2⟩ :=
    TWEEN.update_head_finishes env time tween rest { s with camera := camera } ht h
      (hcalm.of_same rfl)
  unfold _loop
  rw [ha, hu]
  exact ⟨by simpa [Outcome.scene] using h1, by simpa [Outcome.scene] using h2⟩

theorem frames_single (env : Env α) (tween : Tween α) (callback : Callback)
    (hreturns : callback.raises = false) :
    ∀ (times : List α) (s : Scene α), s.tweens = [tween] →
      s.onTweenComplete = some callback →
      (frames env s times).completions =
        s.completions ++
          if times.any (fun t => Tween.finishes env t tween) then
            [(callback.id, Tween.object env tween 1)]
          else [] := by
  intro times
  induction times with
  | nil => intro s _ _; simp [frames]
  | cons t ts ih =>
    intro s ht hc
    show (frames env (_loop env t s).scene ts).completions = _
    cases h : Tween.finishes env t tween with
    | true =>
      have hcalm : Calm s := by
        intro cb hcb
        rw [hc] at hcb
        cases hcb
        exact hreturns
      obtain ⟨h1, h2⟩ := _loop_head_finishes env t tween [] s ht h hcalm
      rw [(frames_idle env ts _ h1).2, h2, hc]
      simp [h]
    | false =>
      obtain ⟨h1, h2, h3⟩ := _loop_single_alive env t tween s ht h
      rw [ih _ h1 (h2.trans hc), h3]
      simp [h]

end Scene

/-! ## Exact arithmetic -/

namespace Tween

variable {α : Type} [LinearOrderedField α]

open Scene

theorem Easing.apply_one_exact (easing : Easing) : easing.apply (id : α → α) 1 = 1 := by
  cases easing <;> simp [Easing.apply]; norm_num

theorem finishes_exact (env : Env α) (time : α) (tween : Tween α) (hround : env.round = id)
    (hd : 0 < tween.duration) :
    finishes env time tween = decide (tween.startTime + tween.duration ≤ time) := by
  unfold finishes elapsed
  simp only [hround, id]
  by_cases hle : tween.startTime + tween.duration ≤ time
  · have h1 : ¬ time < tween.startTime := by intro h'; linarith
    have h2 : 1 ≤ (time - tween.startTime) / tween.duration := by
      rw [le_div_iff₀ hd]; linarith
    rcases lt_or_eq_of_le h2 with h3 | h3
    · simp [h1, hle, h3]
    · simp [h1, hle, ← h3]
  · have h2 : (time - tween.startTime) / tween.duration < 1 := by
      rw [div_lt_iff₀ hd]; linarith
    have h3 : ¬ (time - tween.startTime) / tween.duration > 1 := by
      intro h'; linarith
    simp [hle, h3, ne_of_lt h2]

theorem interpolate_exact (env : Env α) (coordinate : Value α) (target : α)
    (hround : env.round = id) :
    interpolate env (startValue env coordinate) (.number target) (.number 1) =
      arrival coordinate target := by
  cases coordinate <;>
    simp [startValue, interpolate, arrival, Value.mul, Value.add, Value.sub, Value.arith,
      Value.toNumber, Value.orZero, hround]

theorem object_one_exact (env : Env α) (now : α) (action : Navigation)
    (location : Location α) (s : Scene α) (hround : env.round = id) :
    object env (startedTween env now action location s) 1 =
      ⟨arrival s.camera.position.x (target action location).x,
        arrival s.camera.position.y (target action location).y,
        arrival s.camera.position.z (target action location).z⟩ := by
  have he : (startedTween env now action location s).easing.apply env.round 1 = 1 := by
    rw [hround]; exact Easing.apply_one_exact _
  unfold object
  simp only [he]
  simp only [startedTween, interpolate_exact env _ _ hround]

end Tween

/-! ## A single navigation -/

/-- C2 as stated fails, at three inputs. In IEEE doubles, after
`zoomInTo("paris", f)` on the freshly constructed sample scene the callback sees
`z = 9 - 2^-49` (8.999999999999998), not the target 9. After `setCamera(5)`
the coordinates are `undefined`, the tween never writes them, and the callback of
`rotateTo("tokyo", f)` sees them `undefined`. And a callback that throws runs
again on the next frame. -/
theorem navigation_misses_target_or_repeats :
    (Scene.frames doubleEnv
      (Scene.navigate doubleEnv 0 .zoomInTo (.string "paris") (some (.notify 1))
        (Scene.new doubleEnv 0 0)) [500, 1000, 1500]).completions =
      [(1, ⟨.number 7, .number 8, .number (9 - 1 / 2 ^ 49)⟩)] ∧
    (Scene.frames sampleEnv
      (Scene.navigate sampleEnv 0 .rotateTo (.string "tokyo") (some (.notify 1))
        (Scene.step sampleEnv (Scene.new sampleEnv 0 0)
          (.call 0 (.setCamera [.number 5])))) [1000]).completions =
      [(1, ⟨.undefined, .undefined, .undefined⟩)] ∧
    (Scene.frames sampleEnv
      (Scene.navigate sampleEnv 0 .rotateTo (.string "tokyo") (some (.throws 1))
        (Scene.new sampleEnv 0 0)) [1000, 1016]).completions =
      [(1, ⟨.number 4, .number 5, .number 6⟩), (1, ⟨.number 4, .number 5, .number 6⟩)] := by
  decide!

/-- C2, amended: a navigation call whose name resolves, made on a scene with no
tween in the ledger, with a callback that does not throw and followed only by
frames, runs its callback exactly once, on the first frame on which the tween's
elapsed fraction is 1; before such a frame the callback has not run.
`cameraPosition()` at that moment is the tweened object at fraction 1. In exact
arithmetic the fraction is 1 from the clock reading `now + 1000` on, and the
object is the target in every coordinate that was not `undefined` when the call
was made. Auto-rotation may be on or off. -/
theorem navigation_completes_once {α : Type} [LinearOrderedField α]
    (env : Env α) (s : Scene α) (action : Navigation) (name : NameArg)
    (location : Location α) (callback : Callback) (now : α) (times : List α)
    (hname : Scene.findLocation env name = some location)
    (hidle : s.tweens = [])
    (hreturns : callback.raises = false) :
    (Scene.frames env (Scene.navigate env now action name (some callback) s) times).completions =
      s.completions ++
        (if times.any
            (fun t => Tween.finishes env t (Scene.startedTween env now action location s)) then
          [(callback.id, Tween.object env (Scene.startedTween env now action location s) 1)]
        else []) ∧
    (env.round = id →
      (∀ t, Tween.finishes env t (Scene.startedTween env now action location s) =
        decide (now + 1000 ≤ t)) ∧
      Tween.object env (Scene.startedTween env now action location s) 1 =
        ⟨Scene.arrival s.camera.position.x (Scene.target action location).x,
          Scene.arrival s.camera.position.y (Scene.target action location).y,
          Scene.arrival s.camera.position.z (Scene.target action location).z⟩) := by
  constructor
  · obtain ⟨h1, h2, h3⟩ :=
      Scene.navigate_fields env now action name (some callback) s location hname
    rw [Scene.frames_single env (Scene.startedTween env now action location s) callback
      hreturns times _ (by rw [h1, hidle]; rfl) h2, h3]
  · intro hround
    refine ⟨fun t => ?_, Tween.object_one_exact env now action location s hround⟩
    exact Tween.finishes_exact env t _ hround (by show (0 : α) < 1000; norm_num)

/-- The hypotheses of C2 (amended) hold for a call on the freshly constructed
sample scene. -/
theorem navigation_completes_once_witness :
    (Scene.frames sampleEnv
      (Scene.navigate sampleEnv 0 .zoomInTo (.string "paris") (some (.notify 1))
        (Scene.new sampleEnv 0 0)) [500, 1000, 1500]).completions =
      (Scene.new sampleEnv 0 0).completions ++
        (if [(500 : ℚ), 1000, 1500].any
            (fun t => Tween.finishes sampleEnv t
              (Scene.startedTween sampleEnv 0 .zoomInTo ⟨"Paris", ⟨7, 8, 9⟩, ⟨10, 11, 12⟩⟩
                (Scene.new sampleEnv 0 0))) then
          [((Callback.notify 1).id,
            Tween.object sampleEnv
              (Scene.startedTween sampleEnv 0 .zoomInTo ⟨"Paris", ⟨7, 8, 9⟩, ⟨10, 11, 12⟩⟩
                (Scene.new sampleEnv 0 0)) 1)]
        else []) ∧
    (sampleEnv.round = id →
      (∀ t, Tween.finishes sampleEnv t
          (Scene.startedTween sampleEnv 0 .zoomInTo ⟨"Paris", ⟨7, 8, 9⟩, ⟨10, 11, 12⟩⟩
            (Scene.new sampleEnv 0 0)) =
        decide (0 + 1000 ≤ t)) ∧
      Tween.object sampleEnv
          (Scene.startedTween sampleEnv 0 .zoomInTo ⟨"Paris", ⟨7, 8, 9⟩, ⟨10, 11, 12⟩⟩
            (Scene.new sampleEnv 0 0)) 1 =
        ⟨Scene.arrival (Scene.new sampleEnv 0 0).camera.position.x
            (Scene.target .zoomInTo (⟨"Paris", ⟨7, 8, 9⟩, ⟨10, 11, 12⟩⟩ : Location ℚ)).x,
          Scene.arrival (Scene.new sampleEnv 0 0).camera.position.y
            (Scene.target .zoomInTo (⟨"Paris", ⟨7, 8, 9⟩, ⟨10, 11, 12⟩⟩ : Location ℚ)).y,
          Scene.arrival (Scene.new sampleEnv 0 0).camera.position.z
            (Scene.target .zoomInTo (⟨"Paris", ⟨7, 8, 9⟩, ⟨10, 11, 12⟩⟩ : Location ℚ)).z⟩) :=
  navigation_completes_once sampleEnv (Scene.new sampleEnv 0 0) .zoomInTo (.string "paris")
    ⟨"Paris", ⟨7, 8, 9⟩, ⟨10, 11, 12⟩⟩ (.notify 1) 0 [500, 1000, 1500]
    (by decide) (by decide!) (by decide)

/-! ## Names that do not resolve -/

/-- C3: a navigation call whose name matches no table entry returns the scene
unchanged (no tween in the ledger, same camera position, same stored callback,
same `isTweening`), and on no later frame does the callback passed to it run. -/
theorem unresolved_navigation_is_noop {α : Type} [LinearOrderedField α]
    (env : Env α) (now : α) (action : Navigation) (name : NameArg)
    (onComplete : Option Callback) (s : Scene α)
    (hname : Scene.findLocation env name = none) :
    Scene.navigate env now action name onComplete s = s ∧
    ∀ passed, onComplete = some passed →
      (∀ stored, s.onTweenComplete = some stored → stored.id ≠ passed.id) →
      (∀ e ∈ s.completions, e.1 ≠ passed.id) →
      ∀ times, ∀ e ∈ (Scene.frames env
          (Scene.navigate env now action name onComplete s) times).completions,
        e.1 ≠ passed.id := by
  have hs := Scene.navigate_unresolved env now action name onComplete s hname
  refine ⟨hs, fun passed _ hstored hrecord times e he => ?_⟩
  rw [hs] at he
  obtain ⟨⟨extra, hc, hextra⟩, _⟩ := Scene.frames_fires env times s
  rw [hc, List.mem_append] at he
  rcases he with he | he
  · exact hrecord e he
  · obtain ⟨cb, hcb, hid⟩ := hextra e he
    rw [hid]
    exact hstored cb hcb

/-- The hypothesis of C3 holds for a name that is not in the sample table. -/
theorem unresolved_navigation_is_noop_witness :
    Scene.navigate sampleEnv 0 .rotateTo (.string "atlantis") (some (.notify 7))
        (Scene.new sampleEnv 0 0) = Scene.new sampleEnv 0 0 ∧
    ∀ passed, some (Callback.notify 7) = some passed →
      (∀ stored, (Scene.new sampleEnv 0 0).onTweenComplete = some stored →
        stored.id ≠ passed.id) →
      (∀ e ∈ (Scene.new sampleEnv 0 0).completions, e.1 ≠ passed.id) →
      ∀ times, ∀ e ∈ (Scene.frames sampleEnv
          (Scene.navigate sampleEnv 0 .rotateTo (.string "atlantis") (some (.notify 7))
            (Scene.new sampleEnv 0 0)) times).completions,
        e.1 ≠ passed.id :=
  unresolved_navigation_is_noop sampleEnv 0 .rotateTo (.string "atlantis")
    (some (.notify 7)) (Scene.new sampleEnv 0 0) (by decide)

/-! ## Overlapping navigations -/

/-- C4 fails on the code: with `rotateTo("tokyo", f1)` at time 0,
`zoomInTo("paris", f2)` at time 500 and `zoomOutTo("tokyo", f3)` at time 1200,
the third call is made while the tween of the second is in flight (it ends at
1500), yet `f2`, the callback of the replaced call, has run: on the frame at
time 1000 the leftover tween of the first call finishes and its handler calls
the stored callback, which is `f2`. On the frame at 1500 the second tween
finishes and `f3` runs; on the frame at 2200 the third finishes and nothing
runs. -/
theorem replaced_callback_runs_at_leftover_tween_end :
    (Scene.frames sampleEnv
      (Scene.zoomInTo sampleEnv 500 (.string "paris") (some (.notify 2))
        (Scene.rotateTo sampleEnv 0 (.string "tokyo") (some (.notify 1))
          (Scene.new sampleEnv 0 0))) [1000]).completions =
      [(2, ⟨.number 4, .number 5, .number 6⟩)] ∧
    (Scene.frames sampleEnv
      (Scene.zoomInTo sampleEnv 500 (.string "paris") (some (.notify 2))
        (Scene.rotateTo sampleEnv 0 (.string "tokyo") (some (.notify 1))
          (Scene.new sampleEnv 0 0))) [1000]).tweens.map (Tween.elapsed sampleEnv 1200) =
      [7 / 10] ∧
    (Scene.frames sampleEnv
      (Scene.zoomOutTo sampleEnv 1200 (.string "tokyo") (some (.notify 3))
        (Scene.frames sampleEnv
          (Scene.zoomInTo sampleEnv 500 (.string "paris") (some (.notify 2))
            (Scene.rotateTo sampleEnv 0 (.string "tokyo") (some (.notify 1))
              (Scene.new sampleEnv 0 0))) [1000])) [1500, 2200]).completions =
      [(2, ⟨.number 4, .number 5, .number 6⟩), (3, ⟨.number 7, .number 8, .number 9⟩)] := by
  decide!

/-- C5 fails on the code: with `rotateTo("tokyo", f1)` at time 0 and
`zoomInTo("paris", f2)` at time 500, both tweens are in the ledger; on the frame
at time 1000 the first tween finishes and `f2` runs, with the camera at
Tokyo's far position and the second tween at elapsed fraction 1/2; on the
frame at time 1500 the second tween finishes and no callback runs. -/
theorem second_callback_runs_at_first_tween_end :
    (Scene.zoomInTo sampleEnv 500 (.string "paris") (some (.notify 2))
      (Scene.rotateTo sampleEnv 0 (.string "tokyo") (some (.notify 1))
        (Scene.new sampleEnv 0 0))).tweens.map (Tween.elapsed sampleEnv 1000) =
      [1, 1 / 2] ∧
    (Scene.frames sampleEnv
      (Scene.zoomInTo sampleEnv 500 (.string "paris") (some (.notify 2))
        (Scene.rotateTo sampleEnv 0 (.string "tokyo") (some (.notify 1))
          (Scene.new sampleEnv 0 0))) [1000]).completions =
      [(2, ⟨.number 4, .number 5, .number 6⟩)] ∧
    (Scene.frames sampleEnv
      (Scene.zoomInTo sampleEnv 500 (.string "paris") (some (.notify 2))
        (Scene.rotateTo sampleEnv 0 (.string "tokyo") (some (.notify 1))
          (Scene.new sampleEnv 0 0))) [1000]).tweens.map (Tween.elapsed sampleEnv 1000) =
      [1 / 2] ∧
    (Scene.frames sampleEnv
      (Scene.zoomInTo sampleEnv 500 (.string "paris") (some (.notify 2))
        (Scene.rotateTo sampleEnv 0 (.string "tokyo") (some (.notify 1))
          (Scene.new sampleEnv 0 0))) [1000, 1500]).completions =
      [(2, ⟨.number 4, .number 5, .number 6⟩)] ∧
    (Scene.frames sampleEnv
      (Scene.zoomInTo sampleEnv 500 (.string "paris") (some (.notify 2))
        (Scene.rotateTo sampleEnv 0 (.string "tokyo") (some (.notify 1))
          (Scene.new sampleEnv 0 0))) [1000, 1500]).tweens = [] := by
  decide!

/-! ## Chained navigation -/

/-- C6 fails on the code: when the callback of `rotateTo("tokyo", f1)` itself
calls `zoomInTo("paris", f2)`, the chained tween is started on the frame at
time 1000 and finishes on the frame at time 2000, but `f2` runs on no frame at
all: the complete handler clears `onTweenComplete` right after `f1` returns. -/
theorem chained_callback_never_runs (times : List ℚ) :
    (∀ e ∈ (Scene.frames sampleEnv
        (Scene.rotateTo sampleEnv 0 (.string "tokyo")
          (some (.chain 1 .zoomInTo "paris" (.notify 2))) (Scene.new sampleEnv 0 0))
        times).completions, e.1 ≠ 2) ∧
    (Scene.frames sampleEnv
      (Scene.rotateTo sampleEnv 0 (.string "tokyo")
        (some (.chain 1 .zoomInTo "paris" (.notify 2))) (Scene.new sampleEnv 0 0))
      [1000]).tweens.map (Tween.elapsed sampleEnv 1000) = [0] ∧
    (Scene.frames sampleEnv
      (Scene.rotateTo sampleEnv 0 (.string "tokyo")
        (some (.chain 1 .zoomInTo "paris" (.notify 2))) (Scene.new sampleEnv 0 0))
      [1000]).onTweenComplete = none ∧
    (Scene.frames sampleEnv
      (Scene.rotateTo sampleEnv 0 (.string "tokyo")
        (some (.chain 1 .zoomInTo "paris" (.notify 2))) (Scene.new sampleEnv 0 0))
      [1000, 2000]).tweens = [] ∧
    (Scene.frames sampleEnv
      (Scene.rotateTo sampleEnv 0 (.string "tokyo")
        (some (.chain 1 .zoomInTo "paris" (.notify 2))) (Scene.new sampleEnv 0 0))
      [1000, 2000]).completions = [(1, ⟨.number 4, .number 5, .number 6⟩)] := by
  refine ⟨fun e he => ?_, by decide!, by decide!, by decide!, by decide!⟩
  obtain ⟨⟨extra, hc, hextra⟩, _⟩ := Scene.frames_fires sampleEnv times
      (Scene.rotateTo sampleEnv 0 (.string "tokyo")
        (some (.chain 1 .zoomInTo "paris" (.notify 2))) (Scene.new sampleEnv 0 0))
  have hnil : (Scene.rotateTo sampleEnv 0 (.string "tokyo")
      (some (.chain 1 .zoomInTo "paris" (.notify 2)))
      (Scene.new sampleEnv 0 0)).completions = [] := by decide!
  have hstored : (Scene.rotateTo sampleEnv 0 (.string "tokyo")
      (some (.chain 1 .zoomInTo "paris" (.notify 2)))
      (Scene.new sampleEnv 0 0)).onTweenComplete =
      some (.chain 1 .zoomInTo "paris" (.notify 2)) := by decide!
  rw [hc, hnil, List.nil_append] at he
  obtain ⟨cb, hcb, hid⟩ := hextra e he
  rw [hstored] at hcb
  rw [hid, ← Option.some.inj hcb]
  show (1 : Nat) ≠ 2
  decide

/-! ## Lookup by name -/

/-- C8 fails on the code: the sample table has an entry named `Tokyo`, and
`rotateTo("Tokyo")`, the name as written in the table, resolves to no location
and starts no tween, while `rotateTo("tokyo")` resolves to that entry and
starts one: line 206 folds the case of the table name and not of the argument. -/
theorem name_as_written_does_not_resolve :
    sampleEnv.LOCATIONS.map Location.name = ["Tokyo", "Paris"] ∧
    Scene.findLocation sampleEnv (.string "Tokyo") = none ∧
    Scene.rotateTo sampleEnv 0 (.string "Tokyo") none (Scene.new sampleEnv 0 0) =
      Scene.new sampleEnv 0 0 ∧
    (Scene.rotateTo sampleEnv 0 (.string "Tokyo") none (Scene.new sampleEnv 0 0)).tweens = [] ∧
    Scene.findLocation sampleEnv (.string "tokyo") =
      some ⟨"Tokyo", ⟨1, 2, 3⟩, ⟨4, 5, 6⟩⟩ ∧
    (Scene.rotateTo sampleEnv 0 (.string "tokyo") none
      (Scene.new sampleEnv 0 0)).tweens.length = 1 := by
  decide!

theorem filter_head?_eq_find? {β : Type} (p : β → Bool) :
    ∀ l : List β, (l.filter p).head? = l.find? p := by
  intro l
  induction l with
  | nil => rfl
  | cons a l ih =>
    cases h : p a
    · simp [List.filter_cons, List.find?_cons, h, ih]
    · simp [List.filter_cons, List.find?_cons, h]

/-- What the lookup does find: a name resolves only to a table entry whose
lower-cased name it equals, and the lower-cased name of every table entry
resolves, to the first entry with that lower-cased name. -/
theorem findLocation_lowercased {α : Type} [LinearOrderedField α]
    (env : Env α) (location : Location α) (hmem : location ∈ env.LOCATIONS) :
    (∀ name found, Scene.findLocation env name = some found →
      found ∈ env.LOCATIONS ∧ name = .string (env.toLowerCase found.name)) ∧
    ∃ found,
      Scene.findLocation env (.string (env.toLowerCase location.name)) = some found ∧
      env.toLowerCase found.name = env.toLowerCase location.name ∧
      env.LOCATIONS.find? (fun l => env.toLowerCase l.name == env.toLowerCase location.name) =
        some found := by
  have hfound : ∀ name found, Scene.findLocation env name = some found →
      found ∈ env.LOCATIONS ∧ name = .string (env.toLowerCase found.name) := by
    intro name found h
    have hm : found ∈ env.LOCATIONS.filter
        (fun location => name.strictEq (env.toLowerCase location.name)) :=
      List.mem_of_mem_head? h
    obtain ⟨h1, h2⟩ := List.mem_filter.1 hm
    refine ⟨h1, ?_⟩
    cases name with
    | string n =>
      simp only [NameArg.strictEq, beq_iff_eq] at h2
      rw [h2]
    | nonString => simp [NameArg.strictEq] at h2
  refine ⟨hfound, ?_⟩
  cases h : Scene.findLocation env (.string (env.toLowerCase location.name)) with
  | none =>
    have hnil := List.head?_eq_none_iff.1 h
    have hm : location ∈ env.LOCATIONS.filter
        (fun l => (NameArg.string (env.toLowerCase location.name)).strictEq
          (env.toLowerCase l.name)) :=
      List.mem_filter.2 ⟨hmem, by simp [NameArg.strictEq]⟩
    rw [hnil] at hm
    exact absurd hm (List.not_mem_nil _)
  | some found =>
    refine ⟨found, rfl, ?_, ?_⟩
    · have := (hfound _ found h).2
      exact (NameArg.string.inj this).symm
    · have h' := h
      unfold Scene.findLocation at h'
      rw [filter_head?_eq_find?] at h'
      exact h'

/-! ## The render latch -/

namespace Scene

variable {α : Type} [LinearOrderedField α]

theorem navigate_latch (env : Env α) (now : α) (action : Navigation) (name : NameArg)
    (cb : Option Callback) (s : Scene α) :
    (navigate env now action name cb s).isStart = s.isStart ∧
    (navigate env now action name cb s).renders = s.renders := by
  cases action <;> simp only [navigate, rotateTo, zoomInTo, zoomOutTo, _toLocation] <;>
    cases findLocation env name <;> exact ⟨rfl, rfl⟩

theorem onComplete_latch (env : Env α) (now : α) (s : Scene α) :
    (onComplete env now s).scene.isStart = s.isStart ∧
    (onComplete env now s).scene.renders = s.renders := by
  unfold onComplete
  cases h : s.onTweenComplete with
  | none => simp [h, Outcome.scene]
  | some cb =>
    cases cb with
    | notify id => simp [h, invoke, Outcome.scene]
    | chain id action name next =>
      simp only [h, invoke, Outcome.scene]
      exact navigate_latch env now action (.string name) (some next) _
    | throws id => simp [h, invoke, Outcome.scene]

theorem setCamera_latch {α : Type} (arguments : List (Value α)) (s s' : Scene α)
    (h : setCamera arguments s = .ok s') :
    s'.isStart = s.isStart ∧ s'.renders = s.renders ∧
    s'.onTweenComplete = s.onTweenComplete := by
  unfold setCamera at h
  split at h
  · cases h; exact ⟨rfl, rfl, rfl⟩
  · generalize arguments.getD 0 .undefined = v at h
    cases v <;> simp [Value.getProperty, bind, Except.bind] at h <;>
      (rw [← h]; exact ⟨rfl, rfl, rfl⟩)

end Scene

namespace Tween

variable {α : Type} [LinearOrderedField α]

open Scene

theorem tick_latch (env : Env α) (time : α) (tween : Tween α) (s : Scene α) :
    (update env time tween s).scene.isStart = s.isStart ∧
    (update env time tween s).scene.renders = s.renders := by
  rcases update_cases env time tween s with ⟨_, camera, h⟩ | ⟨_, h⟩
  · rw [h]; exact ⟨rfl, rfl⟩
  · rw [h]
    have hl := onComplete_latch env time (onUpdate (object env tween 1) s)
    cases ho : onComplete env time (onUpdate (object env tween 1) s) <;>
      (rw [ho] at hl; exact hl)

end Tween

namespace TWEEN

variable {α : Type} [LinearOrderedField α]

open Scene

theorem updateLoop_latch (env : Env α) (time : α) (n : Nat) :
    ∀ (i : Nat) (s : Scene α),
      (updateLoop env time n i s).scene.isStart = s.isStart ∧
      (updateLoop env time n i s).scene.renders = s.renders := by
  induction n with
  | zero => intro i s; exact ⟨rfl, rfl⟩
  | succ n ih =>
    intro i s
    cases h : s.tweens[i]? with
    | none => rw [updateLoop_none env time _ i s h]; exact ⟨rfl, rfl⟩
    | some tween =>
      have hl := Tween.tick_latch env time tween s
      cases hu : Tween.update env time tween s with
      | alive s' =>
        rw [hu] at hl
        rw [updateLoop_alive env time n i s s' tween h hu]
        exact ⟨(ih _ _).1.trans hl.1, (ih _ _).2.trans hl.2⟩
      | finished s' =>
        rw [hu] at hl
        rw [updateLoop_finished env time n i s s' tween h hu]
        exact ⟨(ih _ _).1.trans hl.1, (ih _ _).2.trans hl.2⟩
      | raised s' =>
        rw [hu] at hl
        rw [updateLoop_raised env time n i s s' tween h hu]
        exact hl

theorem update_latch (env : Env α) (time : α) (s : Scene α) :
    (update env time s).scene.isStart = s.isStart ∧
    (update env time s).scene.renders = s.renders := by
  unfold update
  split
  · exact ⟨rfl, rfl⟩
  · exact updateLoop_latch env time _ _ _

end TWEEN

namespace Scene

variable {α : Type} [LinearOrderedField α]

theorem _animate_latch (env : Env α) (time : α) (s : Scene α) :
    (_animate env time s).scene.isStart = s.isStart ∧
    (_animate env time s).scene.renders = s.renders := by
  obtain ⟨camera, ha⟩ := _animate_eq env time s
  rw [ha]
  have hl := TWEEN.update_latch env time { s with camera := camera }
  cases hu : TWEEN.update env time { s with camera := camera } <;>
    (rw [hu] at hl; exact hl)

theorem _loop_latch (env : Env α) (time : α) (s : Scene α) :
    (_loop env time s).scene.isStart = (!(_loop env time s).isRaised || s.isStart) ∧
    (_loop env time s).scene.renders =
      s.renders ++
        (if (_loop env time s).isRaised then []
          else [if s.isStart then RenderPath.composed else RenderPath.direct]) := by
  have hl := _animate_latch env time s
  unfold _loop
  cases ha : _animate env time s with
  | returned s' =>
    rw [ha] at hl
    simp only [Outcome.scene] at hl
    simp only [Outcome.scene, Outcome.isRaised, _render, hl.1]
    cases hs : s.isStart <;> simp [hl.2]
  | raised s' =>
    rw [ha] at hl
    simp only [Outcome.scene] at hl
    simp [Outcome.scene, Outcome.isRaised, hl.1, hl.2]

theorem step_latch (env : Env α) (s : Scene α) (event : Event α) (h : s.isStart = true) :
    (step env s event).isStart = true ∧
    (step env s event).renders =
      s.renders ++ List.replicate (rendered env s [event]) RenderPath.composed := by
  cases event with
  | frame time =>
    obtain ⟨h1, h2⟩ := _loop_latch env time s
    refine ⟨?_, ?_⟩
    · show (_loop env time s).scene.isStart = true
      rw [h1, h]
      simp
    · show (_loop env time s).scene.renders = _
      rw [h2, h]
      cases hr : (_loop env time s).isRaised <;> simp [rendered, hr]
  | call now action =>
    have key : (step env s (.call now action)).isStart = s.isStart ∧
        (step env s (.call now action)).renders = s.renders := by
      unfold step
      cases action with
      | startAutoRotate => exact ⟨rfl, rfl⟩
      | stopAutoRotate => exact ⟨rfl, rfl⟩
      | setCamera arguments =>
        simp only [call]
        cases hs : setCamera arguments s with
        | error e => exact ⟨rfl, rfl⟩
        | ok s' =>
          obtain ⟨h1, h2, _⟩ := setCamera_latch arguments s s' hs
          exact ⟨h1, h2⟩
      | navigate action name onComplete =>
        exact navigate_latch env now action name onComplete s
    refine ⟨key.1.trans h, ?_⟩
    rw [key.2]
    simp [rendered]

theorem rendered_cons (env : Env α) (s : Scene α) (event : Event α)
    (events : List (Event α)) :
    rendered env s (event :: events) =
      rendered env s [event] + rendered env (step env s event) events := by
  cases event <;> simp [rendered]

theorem run_latch (env : Env α) (events : List (Event α)) :
    ∀ s : Scene α, s.isStart = true →
      (run env s events).isStart = true ∧
      (run env s events).renders =
        s.renders ++ List.replicate (rendered env s events) RenderPath.composed := by
  induction events with
  | nil => intro s h; exact ⟨h, by simp [run, rendered]⟩
  | cons event events ih =>
    intro s h
    obtain ⟨h1, h2⟩ := step_latch env s event h
    obtain ⟨h3, h4⟩ := ih _ h1
    refine ⟨h3, ?_⟩
    show (run env (step env s event) events).renders = _
    rw [h4, h2, List.append_assoc, ← List.replicate_add, ← rendered_cons]

theorem navigate_calm (env : Env α) (now : α) (action : Navigation) (name : NameArg)
    (cb : Option Callback) (s : Scene α) (h : Calm s)
    (hcb : ∀ callback, cb = some callback → callback.raises = false) :
    Calm (navigate env now action name cb s) := by
  cases hf : findLocation env name with
  | none => rw [navigate_unresolved env now action name cb s hf]; exact h
  | some location =>
    intro callback hc
    rw [(navigate_fields env now action name cb s location hf).2.1] at hc
    exact hcb callback hc

theorem step_calm (env : Env α) (s : Scene α) (event : Event α) (h : Calm s)
    (hr : event.returns = true) :
    Calm (step env s event) ∧ rendered env s [event] = if event.isFrame then 1 else 0 := by
  cases event with
  | frame time =>
    obtain ⟨s', hs', hc⟩ := _loop_calm env time s h
    refine ⟨?_, ?_⟩
    · show Calm (_loop env time s).scene
      rw [hs']; exact hc
    · simp [rendered, hs', Outcome.isRaised, Event.isFrame]
  | call now action =>
    refine ⟨?_, by simp [rendered, Event.isFrame]⟩
    unfold step
    cases action with
    | startAutoRotate => exact h.of_same rfl
    | stopAutoRotate => exact h.of_same rfl
    | setCamera arguments =>
      simp only [call]
      cases hs : setCamera arguments s with
      | error e => exact h
      | ok s' => exact h.of_same (setCamera_latch arguments s s' hs).2.2
    | navigate action name onComplete =>
      apply navigate_calm env now action name onComplete s h
      intro callback hc
      subst hc
      simpa [Event.returns] using hr

theorem run_calm (env : Env α) (events : List (Event α)) :
    ∀ s : Scene α, Calm s → (∀ e ∈ events, e.returns = true) →
      rendered env s events = events.countP Event.isFrame := by
  induction events with
  | nil => intro s _ _; rfl
  | cons event events ih =>
    intro s h hr
    obtain ⟨h1, h2⟩ := step_calm env s event h (hr event (List.mem_cons_self _ _))
    rw [rendered_cons, h2, ih _ h1 (fun e he => hr e (List.mem_cons_of_mem _ he)),
      List.countP_cons]
    cases event.isFrame <;> simp; omega

end Scene

/-- C9: the first `_render` of a scene, the one the constructor's `_loop ()`
makes, takes the direct path, and every later one, whatever control-surface
calls come in between, takes the composed path; `isStart` stays set. The
renders are one direct render followed by one composed render for each later
frame that reaches `_render ()`, which is every later frame when no callback
handed to the scene throws. -/
theorem first_render_direct_then_composed {α : Type} [LinearOrderedField α]
    (env : Env α) (cloudRotationY time : α) (events : List (Event α)) :
    (Scene.new env cloudRotationY time).renders = [RenderPath.direct] ∧
    (Scene.run env (Scene.new env cloudRotationY time) events).renders =
      RenderPath.direct ::
        List.replicate (Scene.rendered env (Scene.new env cloudRotationY time) events)
          RenderPath.composed ∧
    (Scene.run env (Scene.new env cloudRotationY time) events).isStart = true ∧
    ((∀ e ∈ events, e.returns = true) →
      (Scene.run env (Scene.new env cloudRotationY time) events).renders =
        RenderPath.direct ::
          List.replicate (events.countP Event.isFrame) RenderPath.composed) := by
  obtain ⟨s', hs', hcalm⟩ := Scene._loop_calm env time (Scene.fields env cloudRotationY)
    (Scene.Calm.of_cleared rfl)
  obtain ⟨h1, h2⟩ := Scene._loop_latch env time (Scene.fields env cloudRotationY)
  have hstart : (Scene.new env cloudRotationY time).isStart = true := by
    show (Scene._loop env time (Scene.fields env cloudRotationY)).scene.isStart = true
    rw [h1, hs']
    rfl
  have hrenders : (Scene.new env cloudRotationY time).renders = [RenderPath.direct] := by
    show (Scene._loop env time (Scene.fields env cloudRotationY)).scene.renders = _
    rw [h2, hs']
    rfl
  have hnew : Scene.Calm (Scene.new env cloudRotationY time) := by
    show Scene.Calm (Scene._loop env time (Scene.fields env cloudRotationY)).scene
    rw [hs']; exact hcalm
  obtain ⟨h3, h4⟩ := Scene.run_latch env events (Scene.new env cloudRotationY time) hstart
  refine ⟨hrenders, by rw [h4, hrenders]; rfl, h3, fun hr => ?_⟩
  rw [h4, hrenders, Scene.run_calm env events _ hnew hr]
  rfl

/-! ## Auto-rotation -/

/-- C1 fails on the code: with `Math.cos` and `Math.sin` the real cosine and
sine, one `_animate` step with auto-rotate on and an empty ledger takes the
constructor's camera `(0, 0, -28)` to a point `(x, 0, z)` with
`x * x + z * z < 28 * 28`. Line 161 multiplies the sine by the `x` that line 160
has just overwritten, so the step is not a rotation and the camera is drawn
towards the vertical axis. -/
theorem autoRotate_frame_shrinks_radius :
    ∃ x z : ℝ,
      (Scene._animate (⟨[], asciiLowerCase, Real.cos, Real.sin, id⟩ : Env ℝ) 0
        (Scene.fields ⟨[], asciiLowerCase, Real.cos, Real.sin, id⟩ 0)).scene.camera.position =
          ⟨.number x, .number 0, .number z⟩ ∧
      x = 28 * Real.sin (1 / 1000) ∧
      z = -28 * Real.cos (1 / 1000) + 28 * Real.sin (1 / 1000) * Real.sin (1 / 1000) ∧
      x * x + z * z < 0 * 0 + (-28) * (-28) := by
  have hs : 0 < Real.sin (1 / 1000) :=
    Real.sin_pos_of_pos_of_lt_pi (by norm_num) (by linarith [Real.pi_gt_three])
  have hs1 : Real.sin (1 / 1000) ≤ 1 / 1000 := Real.sin_le (by norm_num)
  have hc : 1 - (1 / 1000 : ℝ) ^ 2 / 2 ≤ Real.cos (1 / 1000) :=
    Real.one_sub_sq_div_two_le_cos
  have hcs : Real.sin (1 / 1000) ^ 2 + Real.cos (1 / 1000) ^ 2 = 1 :=
    Real.sin_sq_add_cos_sq (1 / 1000)
  refine ⟨0 * Real.cos (1 / 1000) - -28 * Real.sin (1 / 1000),
    -28 * Real.cos (1 / 1000) +
      (0 * Real.cos (1 / 1000) - -28 * Real.sin (1 / 1000)) * Real.sin (1 / 1000),
    rfl, by ring, by ring, ?_⟩
  have hpos : 0 < Real.sin (1 / 1000) ^ 2 *
      (2 * Real.cos (1 / 1000) - Real.sin (1 / 1000) ^ 2) := by
    apply mul_pos (pow_pos hs 2)
    nlinarith
  nlinarith

/-! ## The iteration bound of the scheduler loop is never reached early -/

namespace Scene

variable {α : Type} [LinearOrderedField α]

theorem navigate_tweens_length (env : Env α) (now : α) (action : Navigation) (name : NameArg)
    (cb : Option Callback) (s : Scene α) (ledger : List (Tween α)) (hl : s.tweens = ledger) :
    ledger.length ≤ (navigate env now action name cb s).tweens.length ∧
    (navigate env now action name cb s).tweens.length ≤ ledger.length + 1 := by
  subst hl
  cases h : findLocation env name with
  | none => rw [navigate_unresolved env now action name cb s h]; omega
  | some location =>
    rw [(navigate_fields env now action name cb s location h).1]
    simp

theorem onComplete_tweens_length (env : Env α) (now : α) (s : Scene α)
    (ledger : List (Tween α)) (stored : Option Callback) (hl : s.tweens = ledger)
    (hc : s.onTweenComplete = stored) :
    ledger.length ≤ (onComplete env now s).scene.tweens.length ∧
    (onComplete env now s).scene.tweens.length ≤
      ledger.length + (if stored.isSome then 1 else 0) := by
  subst hl hc
  unfold onComplete
  cases h : s.onTweenComplete with
  | none => simp [h, Outcome.scene]
  | some cb =>
    cases cb with
    | notify id => simp [h, invoke, Outcome.scene]
    | chain id action name next =>
      simp only [h, invoke, Option.isSome_some, if_true, Outcome.scene]
      exact navigate_tweens_length env now action (.string name) (some next) _ s.tweens rfl
    | throws id => simp [h, invoke, Outcome.scene]

end Scene

namespace Tween

variable {α : Type} [LinearOrderedField α]

open Scene

theorem tick_alive (env : Env α) (time : α) (tween : Tween α) (s s' : Scene α)
    (h : update env time tween s = .alive s') :
    s'.tweens = s.tweens ∧ s'.onTweenComplete = s.onTweenComplete := by
  rcases update_cases env time tween s with ⟨_, camera, hu⟩ | ⟨_, hu⟩
  · rw [hu] at h
    cases h
    exact ⟨rfl, rfl⟩
  · rw [hu] at h
    cases ho : onComplete env time (onUpdate (object env tween 1) s) <;>
      (rw [ho] at h; cases h)

theorem tick_finished (env : Env α) (time : α) (tween : Tween α) (s s' : Scene α)
    (h : update env time tween s = .finished s') :
    s'.onTweenComplete = none ∧ s.tweens.length ≤ s'.tweens.length ∧
    s'.tweens.length ≤ s.tweens.length + (if s.onTweenComplete.isSome then 1 else 0) := by
  rcases update_cases env time tween s with ⟨_, camera, hu⟩ | ⟨_, hu⟩
  · rw [hu] at h
    cases h
  · rw [hu] at h
    have hl := onComplete_tweens_length env time (onUpdate (object env tween 1) s)
      s.tweens s.onTweenComplete rfl rfl
    have hcalm : ∀ s₁, onComplete env time (onUpdate (object env tween 1) s) = .returned s₁ →
        s₁.onTweenComplete = none := by
      intro s₁ h₁
      unfold onComplete at h₁
      cases hc : (onUpdate (object env tween 1) s).onTweenComplete with
      | none => simp only [hc] at h₁; cases h₁; rfl
      | some cb =>
        cases cb <;> simp only [hc, invoke] at h₁ <;> cases h₁ <;> rfl
    cases ho : onComplete env time (onUpdate (object env tween 1) s) with
    | returned s₁ =>
      rw [ho] at h hl
      cases h
      exact ⟨hcalm _ ho, hl⟩
    | raised s₁ =>
      rw [ho] at h
      cases h

end Tween

namespace TWEEN

variable {α : Type} [LinearOrderedField α]

open Scene

/-- Once the bound covers `iterations i s`, a larger bound changes nothing: the
loop has left through `i >= _tweens.length` or through an exception. -/
theorem updateLoop_bound (env : Env α) (time : α) (n : Nat) :
    ∀ (m i : Nat) (s : Scene α), iterations i s ≤ n → n ≤ m →
      updateLoop env time m i s = updateLoop env time n i s := by
  induction n with
  | zero =>
    intro m i s hi _
    unfold iterations at hi
    have hlen : s.tweens.length ≤ i := by omega
    have hnone : s.tweens[i]? = none := List.getElem?_eq_none hlen
    rw [updateLoop_none env time m i s hnone, updateLoop_none env time 0 i s hnone]
  | succ n ih =>
    intro m i s hi hm
    obtain ⟨m, rfl⟩ : ∃ m', m = m' + 1 := ⟨m - 1, by omega⟩
    cases hg : s.tweens[i]? with
    | none => rw [updateLoop_none env time _ i s hg, updateLoop_none env time _ i s hg]
    | some tween =>
      have hlt : i < s.tweens.length := by
        by_contra hcon
        rw [List.getElem?_eq_none (not_lt.1 hcon)] at hg
        cases hg
      unfold iterations at hi
      cases hu : Tween.update env time tween s with
      | alive s' =>
        obtain ⟨h1, h2⟩ := Tween.tick_alive env time tween s s' hu
        rw [updateLoop_alive env time m i s s' tween hg hu,
          updateLoop_alive env time n i s s' tween hg hu]
        apply ih
        · unfold iterations
          rw [h1, h2]
          omega
        · omega
      | finished s' =>
        obtain ⟨h1, h2, h3⟩ := Tween.tick_finished env time tween s s' hu
        rw [updateLoop_finished env time m i s s' tween hg hu,
          updateLoop_finished env time n i s s' tween hg hu]
        apply ih
        · have hlt' : i < s'.tweens.length := by omega
          show (s'.tweens.eraseIdx i).length - i +
            (if s'.onTweenComplete.isSome then 1 else 0) ≤ n
          rw [h1, List.length_eraseIdx, if_pos hlt']
          generalize (if s.onTweenComplete.isSome = true then 1 else 0) = k at hi h3
          simp only [Option.isSome_none, Bool.false_eq_true, if_false]
          omega
        · omega
      | raised s' =>
        rw [updateLoop_raised env time m i s s' tween hg hu,
          updateLoop_raised env time n i s s' tween hg hu]

end TWEEN

end Earth
